import Mathlib

/-!
Shallow embedding of the cellular-automaton core (`src/automaton.rs`,
`src/supervisor.rs`, constants from `src/main.rs`).

Conventions: Rust `usize` is `Nat`, `isize` is `Int`; operations that can
panic (indexing, `%` by zero, `usize` subtraction underflow) return
`Option`; `f64` viewport arithmetic is modelled over `ℚ`.
-/

namespace CellAuto

/-- `enum LifeStates { Dead, Alife }` from `automaton.rs`. -/
inductive LifeStates : Type
  | Dead : LifeStates
  | Alife : LifeStates
deriving DecidableEq, Repr

/-- `impl Default for LifeStates` returns `Dead`. -/
instance : Inhabited LifeStates := ⟨LifeStates.Dead⟩

/-- `struct Grid<State> { width, height, grid: Vec<State> }`. -/
structure Grid (State : Type) : Type where
  width : Nat
  height : Nat
  grid : List State
deriving DecidableEq

/-- `Grid::generate`: `width * height` default cells (it never fails). -/
def Grid.generate (State : Type) [Inhabited State] (width height : Nat) : Grid State :=
  { width := width, height := height, grid := List.replicate (width * height) default }

/-- Rust `%` on `usize`: panics when the divisor is zero. -/
def checkedMod (a b : Nat) : Option Nat :=
  if b = 0 then none else some (a % b)

/-- Rust `-` on `usize`: panics on underflow. -/
def checkedSub (a b : Nat) : Option Nat :=
  if b ≤ a then some (a - b) else none

/-- One axis of `Grid::to_idx`: `if c >= 0 { c as usize % dim } else
{ dim - (c.abs() as usize % dim) }`, with the Rust panics made explicit. -/
def wrapAxis (c : Int) (dim : Nat) : Option Nat :=
  if 0 ≤ c then checkedMod c.toNat dim
  else do
    let r ← checkedMod c.natAbs dim
    checkedSub dim r

/-- `Grid::to_idx`: wrap each axis, then `x + y * width`. -/
def Grid.to_idx? {State : Type} (g : Grid State) (x y : Int) : Option Nat := do
  let xw ← wrapAxis x g.width
  let yw ← wrapAxis y g.height
  pure (xw + yw * g.width)

/-- `Index<(isize, isize)> for Grid`: `&self.grid[self.to_idx(x, y)]`. -/
def Grid.get? {State : Type} (g : Grid State) (x y : Int) : Option State := do
  let i ← g.to_idx? x y
  g.grid[i]?

/-- `IndexMut<(isize, isize)> for Grid`: write through `to_idx`. -/
def Grid.set? {State : Type} (g : Grid State) (x y : Int) (v : State) : Option (Grid State) := do
  let i ← g.to_idx? x y
  if i < g.grid.length then
    pure { g with grid := g.grid.set i v }
  else
    none

/-- `struct MooreNeighbors<const RANGE: u16> { curr_x, curr_y, done }`;
the const generic becomes the `range` field. -/
structure MooreNeighbors : Type where
  range : Nat
  curr_x : Int
  curr_y : Int
  done : Bool

/-- `MooreNeighbors::new`. -/
def MooreNeighbors.new (range : Nat) : MooreNeighbors :=
  { range := range, curr_x := -(range : Int), curr_y := -(range : Int), done := false }

/-- `Iterator::next` for `MooreNeighbors`. -/
def MooreNeighbors.next (m : MooreNeighbors) : Option ((Int × Int) × MooreNeighbors) :=
  let range : Int := (m.range : Int)
  if m.done then none
  else if m.curr_x = range ∧ m.curr_y = range then
    some ((m.curr_x, m.curr_y), { m with done := true })
  else if m.curr_x = range then
    some ((m.curr_x, m.curr_y), { m with curr_x := -range, curr_y := m.curr_y + 1 })
  else
    some ((m.curr_x, m.curr_y), { m with curr_x := m.curr_x + 1 })

/-- Drive the iterator for at most `fuel` steps, collecting the items. -/
def MooreNeighbors.run : Nat → MooreNeighbors → List (Int × Int)
  | 0, _ => []
  | fuel + 1, m =>
    match m.next with
    | none => []
    | some (p, m') => p :: MooreNeighbors.run fuel m'

/-- The sequence yielded by `MooreNeighbors::<R>::new()` (enough fuel to
exhaust the iterator). -/
def mooreList (range : Nat) : List (Int × Int) :=
  MooreNeighbors.run ((2 * range + 1) ^ 2) (MooreNeighbors.new range)

/-- The final `match (sum, curr)` table of `Life::update`:
`(2..=3, Alife) => Alife`, `(3, Dead) => Alife`, `_ => Dead`. -/
def lifeRule (sum : Nat) (curr : LifeStates) : LifeStates :=
  match sum, curr with
  | 2, LifeStates.Alife => LifeStates.Alife
  | 3, LifeStates.Alife => LifeStates.Alife
  | 3, LifeStates.Dead => LifeStates.Alife
  | _, _ => LifeStates.Dead

/-- `Life::update`, panics explicit: neighbor reads happen in iterator
order before the center read, exactly as in the Rust expression. -/
def Life.update? (pos : Int × Int) (g : Grid LifeStates) : Option LifeStates := do
  let offs := (mooreList 1).filter (fun p => p.1 != 0 || p.2 != 0)
  let vals ← offs.mapM (fun p => g.get? (p.1 + pos.1) (p.2 + pos.2))
  let sum : Nat := (vals.map (fun s =>
    match s with
    | LifeStates.Dead => 0
    | LifeStates.Alife => 1)).sum
  let curr ← g.get? pos.1 pos.2
  pure (lifeRule sum curr)

/-- `Life::toggle`. -/
def Life.toggle : LifeStates → LifeStates
  | LifeStates.Dead => LifeStates.Alife
  | LifeStates.Alife => LifeStates.Dead

/-- `enum Scale { Manual(f64), Auto(f64) }`, over `ℚ`. -/
inductive Scale : Type
  | Manual : ℚ → Scale
  | Auto : ℚ → Scale
deriving DecidableEq

/-- `Scale::raw`. -/
def Scale.raw : Scale → ℚ
  | Scale.Manual s => s
  | Scale.Auto s => s

/-- `const CELL_WIDTH: usize = 50` from `main.rs`. -/
def CELL_WIDTH : Nat := 50

/-- `struct Supervisor<A> { trans, scale, front_buf, swap_buf }`. -/
structure Supervisor (State : Type) : Type where
  trans : ℚ × ℚ
  scale : Scale
  front_buf : Grid State
  swap_buf : Grid State
deriving DecidableEq

/-- `Supervisor::new`: both buffers from one generated grid. -/
def Supervisor.new (State : Type) [Inhabited State] (width height : Nat) : Supervisor State :=
  let grid := Grid.generate State width height
  { trans := (0, 0), scale := Scale.Auto 1, front_buf := grid, swap_buf := grid }

/-- `Supervisor::width`. -/
def Supervisor.width {State : Type} (s : Supervisor State) : Nat := s.front_buf.width

/-- `Supervisor::height`. -/
def Supervisor.height {State : Type} (s : Supervisor State) : Nat := s.front_buf.height

/-- `Supervisor::reset_zoom`. -/
def Supervisor.reset_zoom {State : Type} (s : Supervisor State)
    (target_width target_height : Nat) : Supervisor State :=
  let tw : ℚ := (target_width : ℚ)
  let th : ℚ := (target_height : ℚ)
  let curr_width : ℚ := (s.width : ℚ) * (CELL_WIDTH : ℚ)
  let curr_height : ℚ := (s.height : ℚ) * (CELL_WIDTH : ℚ)
  let width_scale := tw / curr_width
  let height_scale := th / curr_height
  let min_scale := min width_scale height_scale
  { s with
    scale := Scale.Auto min_scale,
    trans := ((tw / min_scale - curr_width) / 2, (th / min_scale - curr_height) / 2) }

/-- `Supervisor::to_screen_coordinates`: `scale * (p + trans)`. -/
def Supervisor.to_screen_coordinates {State : Type} (s : Supervisor State)
    (obj : ℚ × ℚ) : ℚ × ℚ :=
  (s.scale.raw * (obj.1 + s.trans.1), s.scale.raw * (obj.2 + s.trans.2))

/-- `Supervisor::from_screen_coordinates`: `p / scale - trans`. -/
def Supervisor.from_screen_coordinates {State : Type} (s : Supervisor State)
    (obj : ℚ × ℚ) : ℚ × ℚ :=
  (obj.1 / s.scale.raw - s.trans.1, obj.2 / s.scale.raw - s.trans.2)

/-- `Supervisor::toggle`. -/
def Supervisor.toggle? {State : Type} (tog : State → State) (s : Supervisor State)
    (x y : Int) : Option (Supervisor State) := do
  let old ← s.front_buf.get? x y
  let fb ← s.front_buf.set? x y (tog old)
  pure { s with front_buf := fb }

/-- Inner loop of `Supervisor::update`: write rows `0, 1, …, rows - 1` of
column `x` into `g`, reading from `src`. -/
def writeCol {State : Type} (upd : Int × Int → Grid State → Option State)
    (src : Grid State) (x : Nat) : Nat → Grid State → Option (Grid State)
  | 0, g => some g
  | rows + 1, g => do
    let g' ← writeCol upd src x rows g
    let v ← upd ((x : Int), (rows : Int)) src
    g'.set? (x : Int) (rows : Int) v

/-- Outer loop of `Supervisor::update`: columns `0, 1, …, cols - 1`. -/
def writeAll {State : Type} (upd : Int × Int → Grid State → Option State)
    (src : Grid State) (rows : Nat) : Nat → Grid State → Option (Grid State)
  | 0, g => some g
  | cols + 1, g => do
    let g' ← writeAll upd src rows cols g
    writeCol upd src cols rows g'

/-- `Supervisor::update`: swap buffers, then overwrite the new front buffer
cell by cell from the old front buffer (`upd` is `A::update`). -/
def Supervisor.update? {State : Type} (upd : Int × Int → Grid State → Option State)
    (s : Supervisor State) : Option (Supervisor State) := do
  let src := s.front_buf
  let tgt := s.swap_buf
  let fb ← writeAll upd src tgt.height tgt.width tgt
  pure { s with front_buf := fb, swap_buf := src }

/-! ### Spec-side definitions

`Grid.specGet` follows the spec's words: look up the cell at the canonical
residues (`x mod W` canonicalized into `[0, W)`, likewise for `y`), to be
compared with the source-derived `Grid.get?`. -/

/-- Lookup at the canonical residues, as the spec describes wrap-around. -/
def Grid.specGet {State : Type} (g : Grid State) (x y : Int) : Option State :=
  g.grid[(x % (g.width : Int)).toNat + (y % (g.height : Int)).toNat * g.width]?

/-! ### Wrap-around arithmetic -/

theorem emod_toNat_of_neg (x : Int) (W : Nat) (hW : 0 < W) (hx : x < 0)
    (hr : x.natAbs % W ≠ 0) :
    (x % (W : Int)).toNat = W - x.natAbs % W := by
  set a := x.natAbs with ha
  have hrW : a % W < W := Nat.mod_lt _ hW
  have hx' : x = -(a : Int) := by omega
  have hcast : ((a % W : Nat) : Int) = (a : Int) % (W : Int) := Int.natCast_mod _ _
  have hfull : x % (W : Int) = (W : Int) - ((a % W : Nat) : Int) := by
    calc x % (W : Int) = (-(a : Int)) % (W : Int) := by rw [hx']
      _ = ((W : Int) - (a : Int)) % (W : Int) := Int.neg_emod
      _ = ((W : Int) % (W : Int) - (a : Int) % (W : Int)) % (W : Int) := Int.sub_emod _ _ _
      _ = (-((a : Int) % (W : Int))) % (W : Int) := by rw [Int.emod_self]; ring_nf
      _ = ((W : Int) - ((a : Int) % (W : Int))) % (W : Int) := Int.neg_emod
      _ = (W : Int) - ((a : Int) % (W : Int)) := by
          apply Int.emod_eq_of_lt <;> omega
      _ = (W : Int) - ((a % W : Nat) : Int) := by rw [hcast]
  omega

theorem emod_toNat_of_nonneg (x : Int) (W : Nat) (hx : 0 ≤ x) :
    (x % (W : Int)).toNat = x.toNat % W := by
  have hx' : x = (x.toNat : Int) := by omega
  have hfull : x % (W : Int) = ((x.toNat % W : Nat) : Int) := by
    calc x % (W : Int) = ((x.toNat : Int)) % (W : Int) := by rw [← hx']
      _ = ((x.toNat % W : Nat) : Int) := (Int.natCast_mod _ _).symm
  omega

/-- A coordinate is *defect-free* when it is nonnegative or its absolute
value is not an exact multiple of the dimension (otherwise `to_idx`
computes the out-of-range axis value `dimension`). -/
def goodCoord (c : Int) (dim : Nat) : Prop := 0 ≤ c ∨ c.natAbs % dim ≠ 0

instance (c : Int) (dim : Nat) : Decidable (goodCoord c dim) := by
  unfold goodCoord; infer_instance

theorem wrapAxis_eq (c : Int) (dim : Nat) (hdim : 0 < dim) (hc : goodCoord c dim) :
    wrapAxis c dim = some ((c % (dim : Int)).toNat) := by
  unfold wrapAxis
  by_cases h : 0 ≤ c
  · simp only [h, if_true, checkedMod, hdim.ne', if_false]
    rw [emod_toNat_of_nonneg c dim h]
  · have hc' : c.natAbs % dim ≠ 0 := hc.resolve_left h
    have hlt : c.natAbs % dim < dim := Nat.mod_lt _ hdim
    simp only [h, if_false, checkedMod, hdim.ne', checkedSub, Option.bind_eq_bind,
      Option.some_bind, Nat.le_of_lt hlt, if_true]
    rw [emod_toNat_of_neg c dim hdim (by omega) hc']

theorem Grid.to_idx?_eq {State : Type} (g : Grid State)
    (hW : 0 < g.width) (hH : 0 < g.height) (x y : Int)
    (hx : goodCoord x g.width) (hy : goodCoord y g.height) :
    g.to_idx? x y
      = some ((x % (g.width : Int)).toNat + (y % (g.height : Int)).toNat * g.width) := by
  unfold Grid.to_idx?
  rw [wrapAxis_eq x g.width hW hx, wrapAxis_eq y g.height hH hy]
  rfl

theorem wrap_toNat_lt (c : Int) (dim : Nat) (hdim : 0 < dim) :
    (c % (dim : Int)).toNat < dim := by
  have h1 : 0 ≤ c % (dim : Int) := Int.emod_nonneg c (by omega)
  have h2 : c % (dim : Int) < (dim : Int) := Int.emod_lt_of_pos c (by omega)
  omega

theorem wrap_idx_lt {State : Type} (g : Grid State)
    (hW : 0 < g.width) (hH : 0 < g.height)
    (hlen : g.grid.length = g.width * g.height) (x y : Int) :
    (x % (g.width : Int)).toNat + (y % (g.height : Int)).toNat * g.width
      < g.grid.length := by
  have ha : (x % (g.width : Int)).toNat < g.width := wrap_toNat_lt x g.width hW
  have hb : (y % (g.height : Int)).toNat < g.height := wrap_toNat_lt y g.height hH
  calc (x % (g.width : Int)).toNat + (y % (g.height : Int)).toNat * g.width
      < g.width + (y % (g.height : Int)).toNat * g.width :=
        Nat.add_lt_add_right ha _
    _ = ((y % (g.height : Int)).toNat + 1) * g.width := by ring
    _ ≤ g.height * g.width := Nat.mul_le_mul_right _ (by omega)
    _ = g.grid.length := by rw [hlen, Nat.mul_comm]

theorem Grid.get?_eq_specGet {State : Type} (g : Grid State)
    (hW : 0 < g.width) (hH : 0 < g.height) (x y : Int)
    (hx : goodCoord x g.width) (hy : goodCoord y g.height) :
    g.get? x y = g.specGet x y := by
  unfold Grid.get? Grid.specGet
  rw [g.to_idx?_eq hW hH x y hx hy]
  rfl

theorem Grid.specGet_isSome {State : Type} (g : Grid State)
    (hW : 0 < g.width) (hH : 0 < g.height)
    (hlen : g.grid.length = g.width * g.height) (x y : Int) :
    (g.specGet x y).isSome := by
  unfold Grid.specGet
  have := wrap_idx_lt g hW hH hlen x y
  simp [List.getElem?_eq_getElem this]

theorem wrap_emod_emod (c : Int) (dim : Nat) (hdim : 0 < dim) :
    (c % (dim : Int)) % (dim : Int) = c % (dim : Int) := by
  apply Int.emod_eq_of_lt (Int.emod_nonneg c (by omega)) (Int.emod_lt_of_pos c (by omega))

theorem Grid.specGet_canonical {State : Type} (g : Grid State)
    (hW : 0 < g.width) (hH : 0 < g.height) (x y : Int) :
    g.specGet (x % (g.width : Int)) (y % (g.height : Int)) = g.specGet x y := by
  unfold Grid.specGet
  rw [wrap_emod_emod x g.width hW, wrap_emod_emod y g.height hH]

theorem wrapAxis_zero (c : Int) : wrapAxis c 0 = none := by
  unfold wrapAxis checkedMod
  by_cases h : 0 ≤ c <;> simp [h]

/-! ### Claim C1 -/

/-- C1 (amended): for every grid with positive dimensions and full cell
vector, and all integer coordinates whose negative axis values are not
exact multiples of the corresponding dimension, the lookup never fails,
the computed index is in range, and the result equals the lookup at the
canonical residues. (As stated for *all* integers the claim is false: an
exact negative multiple makes `to_idx` produce the out-of-range axis
value `dimension`; see the counterexample.) -/
theorem C1_grid_wrap_lookup {State : Type} (g : Grid State)
    (hW : 0 < g.width) (hH : 0 < g.height)
    (hlen : g.grid.length = g.width * g.height) (x y : Int)
    (hx : goodCoord x g.width) (hy : goodCoord y g.height) :
    g.to_idx? x y
      = some ((x % (g.width : Int)).toNat + (y % (g.height : Int)).toNat * g.width)
    ∧ (x % (g.width : Int)).toNat + (y % (g.height : Int)).toNat * g.width
        < g.grid.length
    ∧ (g.get? x y).isSome
    ∧ g.get? x y = g.get? (x % (g.width : Int)) (y % (g.height : Int)) := by
  have hidx := g.to_idx?_eq hW hH x y hx hy
  have hlt := wrap_idx_lt g hW hH hlen x y
  have hspec := g.get?_eq_specGet hW hH x y hx hy
  have hxc : goodCoord (x % (g.width : Int)) g.width :=
    Or.inl (Int.emod_nonneg x (by omega))
  have hyc : goodCoord (y % (g.height : Int)) g.height :=
    Or.inl (Int.emod_nonneg y (by omega))
  have hspec' := g.get?_eq_specGet hW hH _ _ hxc hyc
  refine ⟨hidx, hlt, ?_, ?_⟩
  · rw [hspec]
    exact g.specGet_isSome hW hH hlen x y
  · rw [hspec, hspec', g.specGet_canonical hW hH x y]

/-- C1 counterexample: on the freshly generated 1×1 grid the lookup at
`(-1, 0)` fails (`to_idx` computes the out-of-range index 1), while the
canonical-residue lookup at `(0, 0)` succeeds. -/
theorem C1_counterexample :
    (0 : Nat) < (Grid.generate LifeStates 1 1).width
    ∧ (0 : Nat) < (Grid.generate LifeStates 1 1).height
    ∧ (Grid.generate LifeStates 1 1).to_idx? (-1) 0 = some 1
    ∧ (Grid.generate LifeStates 1 1).get? (-1) 0 = none
    ∧ (Grid.generate LifeStates 1 1).get? ((-1 : Int) % (1 : Int)) ((0 : Int) % (1 : Int))
        = some LifeStates.Dead := by
  decide

/-- Witness for C1 on the 3×2 default grid at `(-4, 7)`. -/
theorem C1_witness :
    (Grid.generate LifeStates 3 2).to_idx? (-4) 7
      = some (((-4 : Int) % ((Grid.generate LifeStates 3 2).width : Int)).toNat
          + ((7 : Int) % ((Grid.generate LifeStates 3 2).height : Int)).toNat
            * (Grid.generate LifeStates 3 2).width)
    ∧ ((-4 : Int) % ((Grid.generate LifeStates 3 2).width : Int)).toNat
        + ((7 : Int) % ((Grid.generate LifeStates 3 2).height : Int)).toNat
          * (Grid.generate LifeStates 3 2).width
        < (Grid.generate LifeStates 3 2).grid.length
    ∧ ((Grid.generate LifeStates 3 2).get? (-4) 7).isSome
    ∧ (Grid.generate LifeStates 3 2).get? (-4) 7
        = (Grid.generate LifeStates 3 2).get?
            ((-4 : Int) % ((Grid.generate LifeStates 3 2).width : Int))
            ((7 : Int) % ((Grid.generate LifeStates 3 2).height : Int)) :=
  C1_grid_wrap_lookup (Grid.generate LifeStates 3 2) (by decide) (by decide)
    (by decide) (-4) 7 (by decide) (by decide)

/-! ### Claim C6 -/

/-- C6 (amended): `Grid::generate` never fails; it returns a grid of
`width * height` cells all set to the default state, for zero dimensions
included, and `Supervisor::new` wraps it with translation `(0, 0)` and
scale `Auto 1`. (The claim that construction fails for a zero dimension
is false: no rejection happens at construction time; see the
counterexample, where the failure is deferred to the first access.) -/
theorem C6_generate_total (State : Type) [Inhabited State] (w h : Nat) :
    (Grid.generate State w h).width = w
    ∧ (Grid.generate State w h).height = h
    ∧ (Grid.generate State w h).grid = List.replicate (w * h) default
    ∧ (Grid.generate State w h).grid.length = w * h
    ∧ (Supervisor.new State w h).front_buf = Grid.generate State w h
    ∧ (Supervisor.new State w h).swap_buf = Grid.generate State w h
    ∧ (Supervisor.new State w h).trans = (0, 0)
    ∧ (Supervisor.new State w h).scale = Scale.Auto 1 :=
  ⟨rfl, rfl, rfl, by simp [Grid.generate], rfl, rfl, rfl, rfl⟩

/-- C6 counterexample: construction with width 0 does not fail — it
returns an empty grid — and the failure only surfaces at the first
coordinate access, contradicting "rejected explicitly at construction
time rather than deferred to a later access". -/
theorem C6_counterexample :
    Grid.generate LifeStates 0 5
      = { width := 0, height := 5, grid := ([] : List LifeStates) }
    ∧ (Grid.generate LifeStates 0 5).get? 0 0 = none := by
  decide

/-! ### Claim C7 -/

/-- C7: `Life::toggle` is total on the two states and self-inverse:
`toggle Dead = Alife`, `toggle Alife = Dead`, and
`toggle (toggle s) = s` for every state `s`. -/
theorem C7_toggle_involutive :
    Life.toggle LifeStates.Dead = LifeStates.Alife
    ∧ Life.toggle LifeStates.Alife = LifeStates.Dead
    ∧ ∀ s : LifeStates, Life.toggle (Life.toggle s) = s := by
  refine ⟨rfl, rfl, ?_⟩
  intro s
  cases s <;> rfl

/-! ### Claim C10 -/

/-- C10: `Grid::generate` with a zero dimension succeeds and returns an
empty cell vector, and on such a grid every coordinate access — read or
write, at any integers `x, y` — fails, because `to_idx` takes a
remainder modulo the zero dimension. -/
theorem C10_zero_dimension (State : Type) [Inhabited State] (w h : Nat) (x y : Int)
    (v : State) :
    (Grid.generate State 0 h).grid = []
    ∧ (Grid.generate State w 0).grid = []
    ∧ (Grid.generate State 0 h).get? x y = none
    ∧ (Grid.generate State w 0).get? x y = none
    ∧ (Grid.generate State 0 h).set? x y v = none
    ∧ (Grid.generate State w 0).set? x y v = none := by
  have hx0 : wrapAxis x (0 : Nat) = none := wrapAxis_zero x
  have hy0 : wrapAxis y (0 : Nat) = none := wrapAxis_zero y
  refine ⟨by simp [Grid.generate], by simp [Grid.generate], ?_, ?_, ?_, ?_⟩
  · unfold Grid.get? Grid.to_idx?
    simp [Grid.generate, hx0]
  · unfold Grid.get? Grid.to_idx?
    simp only [Grid.generate]
    cases hw : wrapAxis x w <;> simp [hw, hy0]
  · unfold Grid.set? Grid.to_idx?
    simp [Grid.generate, hx0]
  · unfold Grid.set? Grid.to_idx?
    simp only [Grid.generate]
    cases hw : wrapAxis x w <;> simp [hw, hy0]

/-! ### Claim C5 -/

/-- C5: `to_screen_coordinates` computes `scale * (world + translation)`,
`from_screen_coordinates` computes `screen / scale - translation`, and for
positive scale they are mutually inverse: `to_screen (from_screen p) = p`
(exactly, in the rational model of the floating-point arithmetic). -/
theorem C5_screen_roundtrip {State : Type} (s : Supervisor State)
    (h : 0 < s.scale.raw) (p q : ℚ × ℚ) :
    s.to_screen_coordinates q
      = (s.scale.raw * (q.1 + s.trans.1), s.scale.raw * (q.2 + s.trans.2))
    ∧ s.from_screen_coordinates p
      = (p.1 / s.scale.raw - s.trans.1, p.2 / s.scale.raw - s.trans.2)
    ∧ s.to_screen_coordinates (s.from_screen_coordinates p) = p := by
  refine ⟨rfl, rfl, ?_⟩
  have hs : s.scale.raw ≠ 0 := ne_of_gt h
  unfold Supervisor.to_screen_coordinates Supervisor.from_screen_coordinates
  refine Prod.ext ?_ ?_ <;> · simp only; field_simp; ring

/-- A concrete supervisor used by witnesses: translation `(1, 2)`,
manual scale `2`, both buffers the default 1×1 grid. -/
def sampleSup : Supervisor LifeStates :=
  { trans := (1, 2), scale := Scale.Manual 2,
    front_buf := Grid.generate LifeStates 1 1,
    swap_buf := Grid.generate LifeStates 1 1 }

/-- Witness for C5 at scale 2, translation `(1, 2)`, `p = (5, 7)`,
`q = (3, 4)`. -/
theorem C5_witness :
    sampleSup.to_screen_coordinates (3, 4)
      = (sampleSup.scale.raw * ((3 : ℚ) + sampleSup.trans.1),
         sampleSup.scale.raw * ((4 : ℚ) + sampleSup.trans.2))
    ∧ sampleSup.from_screen_coordinates (5, 7)
      = ((5 : ℚ) / sampleSup.scale.raw - sampleSup.trans.1,
         (7 : ℚ) / sampleSup.scale.raw - sampleSup.trans.2)
    ∧ sampleSup.to_screen_coordinates (sampleSup.from_screen_coordinates (5, 7))
        = ((5 : ℚ), (7 : ℚ)) :=
  C5_screen_roundtrip sampleSup (by norm_num [sampleSup, Scale.raw]) (5, 7) (3, 4)

/-! ### Claim C9 -/

/-- C9: after `reset_zoom vw vh` on a grid with positive dimensions and a
positive viewport, the scale is `Auto (min (vw / (W * 50)) (vh / (H * 50)))`
with `CELL_WIDTH = 50`, and the grid's full pixel bounding box
`[0, W * 50] × [0, H * 50]`, mapped through `to_screen_coordinates`, is
centered within `[0, vw] × [0, vh]` and touches at least one pair of
opposite viewport edges. -/
theorem C9_reset_zoom_fits {State : Type} (s : Supervisor State)
    (vw vh : Nat) (hW : 0 < s.width) (hH : 0 < s.height)
    (hvw : 0 < vw) (hvh : 0 < vh) :
    (s.reset_zoom vw vh).scale
      = Scale.Auto (min ((vw : ℚ) / ((s.width : ℚ) * (CELL_WIDTH : ℚ)))
          ((vh : ℚ) / ((s.height : ℚ) * (CELL_WIDTH : ℚ))))
    ∧ CELL_WIDTH = 50
    ∧ ∃ p0 p1 : ℚ × ℚ,
        p0 = (s.reset_zoom vw vh).to_screen_coordinates (0, 0)
        ∧ p1 = (s.reset_zoom vw vh).to_screen_coordinates
            ((s.width : ℚ) * (CELL_WIDTH : ℚ), (s.height : ℚ) * (CELL_WIDTH : ℚ))
        ∧ p0.1 + p1.1 = (vw : ℚ) ∧ p0.2 + p1.2 = (vh : ℚ)
        ∧ 0 ≤ p0.1 ∧ p1.1 ≤ (vw : ℚ) ∧ 0 ≤ p0.2 ∧ p1.2 ≤ (vh : ℚ)
        ∧ ((p0.1 = 0 ∧ p1.1 = (vw : ℚ)) ∨ (p0.2 = 0 ∧ p1.2 = (vh : ℚ))) := by
  have hcw : (0 : ℚ) < (s.width : ℚ) * (CELL_WIDTH : ℚ) := by
    have : (0 : ℚ) < (s.width : ℚ) := by exact_mod_cast hW
    have : (0 : ℚ) < (CELL_WIDTH : ℚ) := by norm_num [CELL_WIDTH]
    positivity
  have hch : (0 : ℚ) < (s.height : ℚ) * (CELL_WIDTH : ℚ) := by
    have : (0 : ℚ) < (s.height : ℚ) := by exact_mod_cast hH
    have : (0 : ℚ) < (CELL_WIDTH : ℚ) := by norm_num [CELL_WIDTH]
    positivity
  have hvw' : (0 : ℚ) < (vw : ℚ) := by exact_mod_cast hvw
  have hvh' : (0 : ℚ) < (vh : ℚ) := by exact_mod_cast hvh
  set cw : ℚ := (s.width : ℚ) * (CELL_WIDTH : ℚ) with hcwdef
  set ch : ℚ := (s.height : ℚ) * (CELL_WIDTH : ℚ) with hchdef
  set ms : ℚ := min ((vw : ℚ) / cw) ((vh : ℚ) / ch) with hmsdef
  have hms : 0 < ms := lt_min (div_pos hvw' hcw) (div_pos hvh' hch)
  have hms' : ms ≠ 0 := ne_of_gt hms
  have hmw : ms * cw ≤ (vw : ℚ) := by
    have h1 : ms ≤ (vw : ℚ) / cw := min_le_left _ _
    calc ms * cw ≤ ((vw : ℚ) / cw) * cw := by
          exact mul_le_mul_of_nonneg_right h1 (le_of_lt hcw)
      _ = (vw : ℚ) := div_mul_cancel₀ _ (ne_of_gt hcw)
  have hmh : ms * ch ≤ (vh : ℚ) := by
    have h1 : ms ≤ (vh : ℚ) / ch := min_le_right _ _
    calc ms * ch ≤ ((vh : ℚ) / ch) * ch := by
          exact mul_le_mul_of_nonneg_right h1 (le_of_lt hch)
      _ = (vh : ℚ) := div_mul_cancel₀ _ (ne_of_gt hch)
  have hzoom : s.reset_zoom vw vh
      = { s with scale := Scale.Auto ms,
                 trans := (((vw : ℚ) / ms - cw) / 2, ((vh : ℚ) / ms - ch) / 2) } := by
    rfl
  refine ⟨by rw [hzoom], rfl, ?_⟩
  refine ⟨_, _, rfl, rfl, ?_, ?_, ?_, ?_, ?_, ?_, ?_⟩
  · rw [hzoom]; unfold Supervisor.to_screen_coordinates Scale.raw; simp only
    field_simp
    ring
  · rw [hzoom]; unfold Supervisor.to_screen_coordinates Scale.raw; simp only
    field_simp
    ring
  · rw [hzoom]; unfold Supervisor.to_screen_coordinates Scale.raw; simp only
    have : ms * ((0 : ℚ) + ((vw : ℚ) / ms - cw) / 2) = ((vw : ℚ) - ms * cw) / 2 := by
      field_simp; ring
    rw [this]
    linarith
  · rw [hzoom]; unfold Supervisor.to_screen_coordinates Scale.raw; simp only
    have : ms * (cw + ((vw : ℚ) / ms - cw) / 2) = ((vw : ℚ) + ms * cw) / 2 := by
      field_simp; ring
    rw [this]
    linarith
  · rw [hzoom]; unfold Supervisor.to_screen_coordinates Scale.raw; simp only
    have : ms * ((0 : ℚ) + ((vh : ℚ) / ms - ch) / 2) = ((vh : ℚ) - ms * ch) / 2 := by
      field_simp; ring
    rw [this]
    linarith
  · rw [hzoom]; unfold Supervisor.to_screen_coordinates Scale.raw; simp only
    have : ms * (ch + ((vh : ℚ) / ms - ch) / 2) = ((vh : ℚ) + ms * ch) / 2 := by
      field_simp; ring
    rw [this]
    linarith
  · rcases min_choice ((vw : ℚ) / cw) ((vh : ℚ) / ch) with hmin | hmin
    · left
      have hfit : ms * cw = (vw : ℚ) := by
        rw [hmsdef, hmin, div_mul_cancel₀ _ (ne_of_gt hcw)]
      constructor
      · rw [hzoom]; unfold Supervisor.to_screen_coordinates Scale.raw; simp only
        have : ms * ((0 : ℚ) + ((vw : ℚ) / ms - cw) / 2) = ((vw : ℚ) - ms * cw) / 2 := by
          field_simp; ring
        rw [this, hfit]
        ring
      · rw [hzoom]; unfold Supervisor.to_screen_coordinates Scale.raw; simp only
        have : ms * (cw + ((vw : ℚ) / ms - cw) / 2) = ((vw : ℚ) + ms * cw) / 2 := by
          field_simp; ring
        rw [this, hfit]
        ring
    · right
      have hfit : ms * ch = (vh : ℚ) := by
        rw [hmsdef, hmin, div_mul_cancel₀ _ (ne_of_gt hch)]
      constructor
      · rw [hzoom]; unfold Supervisor.to_screen_coordinates Scale.raw; simp only
        have : ms * ((0 : ℚ) + ((vh : ℚ) / ms - ch) / 2) = ((vh : ℚ) - ms * ch) / 2 := by
          field_simp; ring
        rw [this, hfit]
        ring
      · rw [hzoom]; unfold Supervisor.to_screen_coordinates Scale.raw; simp only
        have : ms * (ch + ((vh : ℚ) / ms - ch) / 2) = ((vh : ℚ) + ms * ch) / 2 := by
          field_simp; ring
        rw [this, hfit]
        ring

/-- Witness for C9: the 1×1 sample supervisor fitted into a 100×100
viewport. -/
theorem C9_witness :
    (sampleSup.reset_zoom 100 100).scale
      = Scale.Auto (min (((100 : Nat) : ℚ) / ((sampleSup.width : ℚ) * (CELL_WIDTH : ℚ)))
          (((100 : Nat) : ℚ) / ((sampleSup.height : ℚ) * (CELL_WIDTH : ℚ))))
    ∧ CELL_WIDTH = 50
    ∧ ∃ p0 p1 : ℚ × ℚ,
        p0 = (sampleSup.reset_zoom 100 100).to_screen_coordinates (0, 0)
        ∧ p1 = (sampleSup.reset_zoom 100 100).to_screen_coordinates
            ((sampleSup.width : ℚ) * (CELL_WIDTH : ℚ),
             (sampleSup.height : ℚ) * (CELL_WIDTH : ℚ))
        ∧ p0.1 + p1.1 = ((100 : Nat) : ℚ) ∧ p0.2 + p1.2 = ((100 : Nat) : ℚ)
        ∧ 0 ≤ p0.1 ∧ p1.1 ≤ ((100 : Nat) : ℚ) ∧ 0 ≤ p0.2 ∧ p1.2 ≤ ((100 : Nat) : ℚ)
        ∧ ((p0.1 = 0 ∧ p1.1 = ((100 : Nat) : ℚ))
            ∨ (p0.2 = 0 ∧ p1.2 = ((100 : Nat) : ℚ))) :=
  C9_reset_zoom_fits sampleSup 100 100 (by decide) (by decide) (by decide) (by decide)

/-! ### Claim C4: the Moore neighbourhood enumerator -/

/-- Spec-side description of the enumerator's output: all `(dx, dy)` with
`dx, dy ∈ [-R, R]`, in row-major scan order, `y` outer and `x` inner. -/
def squareList (R : Nat) : List (Int × Int) :=
  (List.range (2 * R + 1)).flatMap (fun j : Nat =>
    (List.range (2 * R + 1)).map (fun i : Nat =>
      ((i : Int) - (R : Int), (j : Int) - (R : Int))))

/-- `n` consecutive cells of row `y` starting at abscissa `x`. -/
def rowCells (y : Int) : Int → Nat → List (Int × Int)
  | _, 0 => []
  | x, n + 1 => (x, y) :: rowCells y (x + 1) n

/-- `n` consecutive full rows (width `2R+1`, starting at `-R`) from row `y`. -/
def rowsFrom (R : Nat) : Int → Nat → List (Int × Int)
  | _, 0 => []
  | y, n + 1 => rowCells y (-(R : Int)) (2 * R + 1) ++ rowsFrom R (y + 1) n

theorem rowCells_eq_map (y : Int) : ∀ (n : Nat) (x : Int),
    rowCells y x n = (List.range n).map (fun i : Nat => (x + (i : Int), y)) := by
  intro n
  induction n with
  | zero => intro x; rfl
  | succ n ih =>
    intro x
    have h1 : ((fun i : Nat => (x + (i : Int), y)) ∘ Nat.succ)
        = fun i : Nat => (x + 1 + (i : Int), y) := by
      funext i
      simp only [Function.comp_apply]
      refine congrArg₂ _ ?_ rfl
      push_cast
      ring
    rw [List.range_succ_eq_map, List.map_cons, List.map_map, h1]
    simp only [rowCells, ih (x + 1), Nat.cast_zero, add_zero]

theorem length_rowCells (y : Int) : ∀ (n : Nat) (x : Int), (rowCells y x n).length = n := by
  intro n
  induction n with
  | zero => intro x; rfl
  | succ n ih => intro x; simp [rowCells, ih]

theorem mem_rowCells (y : Int) : ∀ (n : Nat) (x : Int) (p : Int × Int),
    p ∈ rowCells y x n ↔ p.2 = y ∧ x ≤ p.1 ∧ p.1 < x + n := by
  intro n
  induction n with
  | zero =>
    intro x p
    simp only [rowCells, List.not_mem_nil, false_iff]
    omega
  | succ n ih =>
    intro x p
    simp only [rowCells, List.mem_cons, ih (x + 1)]
    constructor
    · rintro (rfl | ⟨h1, h2, h3⟩)
      · exact ⟨rfl, le_refl _, by omega⟩
      · exact ⟨h1, by omega, by omega⟩
    · rintro ⟨h1, h2, h3⟩
      rcases eq_or_lt_of_le h2 with h | h
      · left
        rw [Prod.ext_iff]
        exact ⟨h.symm, h1⟩
      · right
        exact ⟨h1, by omega, by omega⟩

theorem nodup_rowCells (y : Int) : ∀ (n : Nat) (x : Int), (rowCells y x n).Nodup := by
  intro n
  induction n with
  | zero => intro x; simp [rowCells]
  | succ n ih =>
    intro x
    simp only [rowCells, List.nodup_cons]
    refine ⟨?_, ih (x + 1)⟩
    rw [mem_rowCells]
    simp only
    omega

theorem length_rowsFrom (R : Nat) : ∀ (n : Nat) (y : Int),
    (rowsFrom R y n).length = n * (2 * R + 1) := by
  intro n
  induction n with
  | zero => intro y; simp [rowsFrom]
  | succ n ih =>
    intro y
    simp only [rowsFrom, List.length_append, length_rowCells, ih]
    ring

theorem mem_rowsFrom (R : Nat) : ∀ (n : Nat) (y : Int) (p : Int × Int),
    p ∈ rowsFrom R y n
      ↔ (-(R : Int) ≤ p.1 ∧ p.1 ≤ (R : Int) ∧ y ≤ p.2 ∧ p.2 < y + n) := by
  intro n
  induction n with
  | zero =>
    intro y p
    simp only [rowsFrom, List.not_mem_nil, false_iff]
    omega
  | succ n ih =>
    intro y p
    simp only [rowsFrom, List.mem_append, mem_rowCells, ih (y + 1)]
    constructor
    · rintro (⟨h1, h2, h3⟩ | ⟨h1, h2, h3, h4⟩) <;>
        refine ⟨by omega, by omega, by omega, by omega⟩
    · rintro ⟨h1, h2, h3, h4⟩
      rcases eq_or_lt_of_le h3 with h | h
      · left
        refine ⟨h.symm, by omega, by omega⟩
      · right
        refine ⟨by omega, by omega, by omega, by omega⟩

theorem nodup_rowsFrom (R : Nat) : ∀ (n : Nat) (y : Int), (rowsFrom R y n).Nodup := by
  intro n
  induction n with
  | zero => intro y; simp [rowsFrom]
  | succ n ih =>
    intro y
    refine List.Nodup.append (nodup_rowCells y _ _) (ih (y + 1)) ?_
    intro p hp hp'
    rw [mem_rowCells] at hp
    rw [mem_rowsFrom] at hp'
    omega

theorem getLast?_rowCells (y : Int) : ∀ (n : Nat) (x : Int), 0 < n →
    (rowCells y x n).getLast? = some (x + (n : Int) - 1, y) := by
  intro n
  induction n with
  | zero => intro x h; omega
  | succ n ih =>
    intro x _
    rcases Nat.eq_zero_or_pos n with rfl | hn
    · simp [rowCells]
    · have hne : rowCells y (x + 1) n ≠ [] := by
        intro hc
        have := length_rowCells y n (x + 1)
        rw [hc] at this
        simp at this
        omega
      calc (rowCells y x (n + 1)).getLast?
          = (rowCells y (x + 1) n).getLast? := by
            show ([(x, y)] ++ rowCells y (x + 1) n).getLast?
              = (rowCells y (x + 1) n).getLast?
            exact List.getLast?_append_of_ne_nil [(x, y)] hne
        _ = some (x + 1 + (n : Int) - 1, y) := ih (x + 1) hn
        _ = some (x + ((n : Nat) + 1 : Int) - 1, y) := by
            refine congrArg _ ?_
            refine congrArg₂ _ ?_ rfl
            ring

theorem getLast?_rowsFrom (R : Nat) : ∀ (n : Nat) (y : Int), 0 < n →
    (rowsFrom R y n).getLast? = some ((R : Int), y + (n : Int) - 1) := by
  intro n
  induction n with
  | zero => intro y h; omega
  | succ n ih =>
    intro y _
    rcases Nat.eq_zero_or_pos n with rfl | hn
    · simp only [rowsFrom, List.append_nil]
      rw [getLast?_rowCells y (2 * R + 1) (-(R : Int)) (by omega)]
      refine congrArg _ ?_
      refine congrArg₂ _ ?_ (by push_cast; ring)
      push_cast
      ring
    · have hne : rowsFrom R (y + 1) n ≠ [] := by
        intro hc
        have := length_rowsFrom R n (y + 1)
        rw [hc] at this
        simp at this
        omega
      calc (rowsFrom R y (n + 1)).getLast?
          = (rowsFrom R (y + 1) n).getLast? := by
            simp only [rowsFrom]
            exact List.getLast?_append_of_ne_nil _ hne
        _ = some ((R : Int), y + 1 + (n : Int) - 1) := ih (y + 1) hn
        _ = some ((R : Int), y + ((n : Nat) + 1 : Int) - 1) := by
            refine congrArg _ ?_
            refine congrArg₂ _ rfl ?_
            ring

theorem flatMap_map_aux {α β γ : Type} (l : List α) (u : α → β) (f : β → List γ) :
    (l.map u).flatMap f = l.flatMap (fun a => f (u a)) := by
  induction l with
  | nil => rfl
  | cons a l ih => simp only [List.map_cons, List.flatMap_cons, ih]

theorem rowsFrom_eq_flatMap (R : Nat) : ∀ (n : Nat) (y : Int),
    rowsFrom R y n = (List.range n).flatMap (fun j : Nat =>
      (List.range (2 * R + 1)).map (fun i : Nat =>
        (-(R : Int) + (i : Int), y + (j : Int)))) := by
  intro n
  induction n with
  | zero => intro y; rfl
  | succ n ih =>
    intro y
    rw [List.range_succ_eq_map]
    simp only [rowsFrom, List.flatMap_cons, flatMap_map_aux, ih (y + 1)]
    have h1 : (fun i : Nat => (-(R : Int) + (i : Int), y + ((0 : Nat) : Int)))
        = fun i : Nat => (-(R : Int) + (i : Int), y) := by
      funext i
      norm_num
    have h2 : (fun j : Nat =>
          (List.range (2 * R + 1)).map
            (fun i : Nat => (-(R : Int) + (i : Int), y + (Nat.succ j : Int))))
        = fun j : Nat =>
          (List.range (2 * R + 1)).map
            (fun i : Nat => (-(R : Int) + (i : Int), y + 1 + (j : Int))) := by
      funext j
      refine congrArg₂ _ ?_ rfl
      funext i
      refine congrArg₂ _ rfl ?_
      push_cast
      ring
    rw [h1, h2, rowCells_eq_map]

/-- `squareList` in terms of the recursive row presentation. -/
theorem squareList_eq_rowsFrom (R : Nat) :
    squareList R = rowsFrom R (-(R : Int)) (2 * R + 1) := by
  rw [rowsFrom_eq_flatMap]
  unfold squareList
  refine congrArg₂ _ rfl ?_
  funext j
  refine congrArg₂ _ ?_ rfl
  funext i
  refine congrArg₂ _ (by ring) (by ring)

theorem run_done (fuel R : Nat) (x y : Int) :
    MooreNeighbors.run fuel ⟨R, x, y, true⟩ = [] := by
  cases fuel with
  | zero => rfl
  | succ n => simp [MooreNeighbors.run, MooreNeighbors.next]

theorem run_eq_rowsFrom (R : Nat) : ∀ (fuel : Nat) (x y : Int),
    -(R : Int) ≤ x → x ≤ (R : Int) → -(R : Int) ≤ y → y ≤ (R : Int) →
    ((((R : Int) - x) + ((R : Int) - y) * (2 * (R : Int) + 1)).toNat + 1 ≤ fuel) →
    MooreNeighbors.run fuel ⟨R, x, y, false⟩
      = rowCells y x (((R : Int) - x).toNat + 1)
        ++ rowsFrom R (y + 1) (((R : Int) - y).toNat) := by
  intro fuel
  induction fuel with
  | zero =>
    intro x y hx1 hx2 hy1 hy2 hfuel
    omega
  | succ fuel ih =>
    intro x y hx1 hx2 hy1 hy2 hfuel
    by_cases hxR : x = (R : Int)
    · by_cases hyR : y = (R : Int)
      · subst hxR
        subst hyR
        have hnext : MooreNeighbors.run (fuel + 1) ⟨R, (R : Int), (R : Int), false⟩
            = ((R : Int), (R : Int))
              :: MooreNeighbors.run fuel ⟨R, (R : Int), (R : Int), true⟩ := by
          simp [MooreNeighbors.run, MooreNeighbors.next]
        rw [hnext, run_done]
        have h1 : ((R : Int) - (R : Int)).toNat = 0 := by omega
        rw [h1]
        simp [rowCells, rowsFrom]
      · subst hxR
        have hyR' : y < (R : Int) := lt_of_le_of_ne hy2 hyR
        have hnext : MooreNeighbors.run (fuel + 1) ⟨R, (R : Int), y, false⟩
            = ((R : Int), y) :: MooreNeighbors.run fuel ⟨R, -(R : Int), y + 1, false⟩ := by
          simp [MooreNeighbors.run, MooreNeighbors.next, hyR]
        have hBnn : (0 : Int) ≤ ((R : Int) - (y + 1)) * (2 * (R : Int) + 1) :=
          mul_nonneg (by omega) (by omega)
        have hprod : ((R : Int) - y) * (2 * (R : Int) + 1)
            = ((R : Int) - (y + 1)) * (2 * (R : Int) + 1) + (2 * (R : Int) + 1) := by
          ring
        have hih := ih (-(R : Int)) (y + 1) (by omega) (by omega) (by omega) (by omega)
          (by omega)
        rw [hnext, hih]
        have h1 : ((R : Int) - (R : Int)).toNat = 0 := by omega
        have h2 : ((R : Int) - y).toNat = ((R : Int) - (y + 1)).toNat + 1 := by omega
        have h3 : ((R : Int) - -(R : Int)).toNat + 1 = 2 * R + 1 := by omega
        rw [h1, h2, h3]
        simp only [rowCells, rowsFrom, List.nil_append, List.cons_append]
    · have hxR' : x < (R : Int) := lt_of_le_of_ne hx2 hxR
      have hnext : MooreNeighbors.run (fuel + 1) ⟨R, x, y, false⟩
          = (x, y) :: MooreNeighbors.run fuel ⟨R, x + 1, y, false⟩ := by
        simp [MooreNeighbors.run, MooreNeighbors.next, hxR]
      have hCnn : (0 : Int) ≤ ((R : Int) - y) * (2 * (R : Int) + 1) :=
        mul_nonneg (by omega) (by omega)
      have hih := ih (x + 1) y (by omega) (by omega) hy1 hy2 (by omega)
      rw [hnext, hih]
      have h2 : ((R : Int) - x).toNat + 1 = (((R : Int) - (x + 1)).toNat + 1) + 1 := by
        omega
      rw [h2]
      simp only [rowCells, List.cons_append]

theorem run_new_eq_squareList (R extra : Nat) :
    MooreNeighbors.run ((2 * R + 1) ^ 2 + extra) (MooreNeighbors.new R) = squareList R := by
  have hfuel : (((R : Int) - -(R : Int)) + ((R : Int) - -(R : Int)) * (2 * (R : Int) + 1)).toNat + 1
      ≤ (2 * R + 1) ^ 2 + extra := by
    have h0 : ((R : Int) - -(R : Int)) + ((R : Int) - -(R : Int)) * (2 * (R : Int) + 1)
        = ((2 * R + 2 * R * (2 * R + 1) : Nat) : Int) := by
      push_cast
      ring
    rw [h0, Int.toNat_natCast]
    have h1 : 2 * R + 2 * R * (2 * R + 1) + 1 = (2 * R + 1) ^ 2 := by ring
    omega
  have hrun := run_eq_rowsFrom R ((2 * R + 1) ^ 2 + extra) (-(R : Int)) (-(R : Int))
    (le_refl _) (by omega) (le_refl _) (by omega) hfuel
  have hnew : MooreNeighbors.new R = ⟨R, -(R : Int), -(R : Int), false⟩ := rfl
  rw [hnew, hrun, squareList_eq_rowsFrom]
  have h2 : ((R : Int) - -(R : Int)).toNat = 2 * R := by omega
  rw [h2]
  show rowCells (-(R : Int)) (-(R : Int)) (2 * R + 1) ++ rowsFrom R (-(R : Int) + 1) (2 * R)
    = rowsFrom R (-(R : Int)) (2 * R + 1)
  rfl

/-- C4: the Moore-neighbourhood iterator, run to exhaustion from
`MooreNeighbors::new`, yields exactly the `(2R+1)^2` distinct offset pairs
`(dx, dy)` with `dx, dy ∈ [-R, R]`, in row-major scan order (`y` outer,
`x` inner), starting at `(-R, -R)` and ending at `(R, R)`; extra fuel
yields nothing more, and for `R = 0` the sequence is exactly `[(0, 0)]`. -/
theorem C4_moore_enumeration (R extra : Nat) :
    MooreNeighbors.run ((2 * R + 1) ^ 2 + extra) (MooreNeighbors.new R) = squareList R
    ∧ mooreList R = squareList R
    ∧ (squareList R).length = (2 * R + 1) ^ 2
    ∧ (squareList R).Nodup
    ∧ (∀ p : Int × Int, p ∈ squareList R
        ↔ -(R : Int) ≤ p.1 ∧ p.1 ≤ (R : Int) ∧ -(R : Int) ≤ p.2 ∧ p.2 ≤ (R : Int))
    ∧ (squareList R).head? = some (-(R : Int), -(R : Int))
    ∧ (squareList R).getLast? = some ((R : Int), (R : Int))
    ∧ mooreList 0 = [(0, 0)] := by
  refine ⟨run_new_eq_squareList R extra, ?_, ?_, ?_, ?_, ?_, ?_, by decide⟩
  · have h := run_new_eq_squareList R 0
    rw [Nat.add_zero] at h
    exact h
  · rw [squareList_eq_rowsFrom, length_rowsFrom]
    ring
  · rw [squareList_eq_rowsFrom]
    exact nodup_rowsFrom R (2 * R + 1) (-(R : Int))
  · intro p
    rw [squareList_eq_rowsFrom, mem_rowsFrom]
    push_cast
    omega
  · rw [squareList_eq_rowsFrom]
    show (rowCells (-(R : Int)) (-(R : Int)) (2 * R + 1)
      ++ rowsFrom R (-(R : Int) + 1) (2 * R)).head? = _
    simp [rowCells]
  · rw [squareList_eq_rowsFrom, getLast?_rowsFrom R (2 * R + 1) (-(R : Int)) (by omega)]
    refine congrArg _ ?_
    refine congrArg₂ _ rfl ?_
    push_cast
    ring

/-! ### Claim C2: the double-buffered step -/

theorem nat_idx_lt (W H x y : Nat) (hx : x < W) (hy : y < H) : x + y * W < W * H := by
  calc x + y * W < W + y * W := Nat.add_lt_add_right hx _
    _ = (y + 1) * W := by ring
    _ ≤ H * W := Nat.mul_le_mul_right _ (by omega)
    _ = W * H := Nat.mul_comm _ _

theorem cellIdx_inj (W x1 y1 x2 y2 : Nat) (hx1 : x1 < W) (hx2 : x2 < W)
    (h : x1 + y1 * W = x2 + y2 * W) : x1 = x2 ∧ y1 = y2 := by
  have h1 : (x1 + y1 * W) % W = x1 % W := Nat.add_mul_mod_self_right x1 y1 W
  have h2 : (x2 + y2 * W) % W = x2 % W := Nat.add_mul_mod_self_right x2 y2 W
  have hx1' : x1 % W = x1 := Nat.mod_eq_of_lt hx1
  have hx2' : x2 % W = x2 := Nat.mod_eq_of_lt hx2
  have hxeq : x1 = x2 := by rw [← hx1', ← h1, h, h2, hx2']
  subst hxeq
  have hyW : y1 * W = y2 * W := by omega
  have hW : 0 < W := by omega
  exact ⟨rfl, Nat.eq_of_mul_eq_mul_right hW hyW⟩

theorem Grid.to_idx?_inrange {State : Type} (g : Grid State)
    (hW : 0 < g.width) (hH : 0 < g.height) (x y : Nat)
    (hx : x < g.width) (hy : y < g.height) :
    g.to_idx? (x : Int) (y : Int) = some (x + y * g.width) := by
  rw [g.to_idx?_eq hW hH (x : Int) (y : Int) (Or.inl (by omega)) (Or.inl (by omega))]
  have h1 : (((x : Int)) % (g.width : Int)).toNat = x := by
    rw [emod_toNat_of_nonneg _ _ (by omega), Int.toNat_natCast, Nat.mod_eq_of_lt hx]
  have h2 : (((y : Int)) % (g.height : Int)).toNat = y := by
    rw [emod_toNat_of_nonneg _ _ (by omega), Int.toNat_natCast, Nat.mod_eq_of_lt hy]
  rw [h1, h2]

theorem Grid.set?_inrange {State : Type} (g : Grid State)
    (hW : 0 < g.width) (hH : 0 < g.height)
    (hlen : g.grid.length = g.width * g.height) (x y : Nat)
    (hx : x < g.width) (hy : y < g.height) (v : State) :
    g.set? (x : Int) (y : Int) v
      = some { g with grid := g.grid.set (x + y * g.width) v } := by
  unfold Grid.set?
  rw [g.to_idx?_inrange hW hH x y hx hy]
  have hlt : x + y * g.width < g.grid.length := by
    rw [hlen]
    exact nat_idx_lt _ _ _ _ hx hy
  simp [hlt]

theorem writeCol_spec {State : Type} (upd : Int × Int → Grid State → Option State)
    (src : Grid State) (W H x : Nat) (hx : x < W) :
    ∀ (n : Nat), n ≤ H → ∀ (g : Grid State),
    g.width = W → g.height = H → g.grid.length = W * H →
    (∀ y : Nat, y < n → (upd ((x : Int), (y : Int)) src).isSome) →
    ∃ g', writeCol upd src x n g = some g'
      ∧ g'.width = W ∧ g'.height = H ∧ g'.grid.length = W * H
      ∧ (∀ x' y' : Nat, x' < W → y' < H →
          g'.grid[x' + y' * W]? =
            if x' = x ∧ y' < n then upd ((x' : Int), (y' : Int)) src
            else g.grid[x' + y' * W]?) := by
  intro n
  induction n with
  | zero =>
    intro _ g hgw hgh hgl _
    refine ⟨g, rfl, hgw, hgh, hgl, ?_⟩
    intro x' y' _ _
    simp
  | succ n ih =>
    intro hn g hgw hgh hgl hupd
    obtain ⟨g1, hrun, hg1w, hg1h, hg1l, hchar⟩ :=
      ih (by omega) g hgw hgh hgl (fun y hy => hupd y (by omega))
    obtain ⟨v, hv⟩ := Option.isSome_iff_exists.mp (hupd n (by omega))
    have hset := g1.set?_inrange (by rw [hg1w]; omega) (by rw [hg1h]; omega)
      (by rw [hg1w, hg1h]; exact hg1l) x n (by rw [hg1w]; omega) (by rw [hg1h]; omega) v
    rw [hg1w, hg1h] at hset
    refine ⟨⟨W, H, g1.grid.set (x + n * W) v⟩, ?_, rfl, rfl,
      by simp [List.length_set, hg1l], ?_⟩
    · show (do
        let g' ← writeCol upd src x n g
        let v ← upd ((x : Int), (n : Int)) src
        g'.set? (x : Int) (n : Int) v) = _
      rw [hrun]
      simp only [Option.bind_eq_bind, Option.some_bind]
      rw [hv]
      simp only [Option.some_bind]
      exact hset
    · intro x' y' hx' hy'
      simp only
      by_cases hhit : x' = x ∧ y' = n
      · obtain ⟨rfl, rfl⟩ := hhit
        have hidx : x' + y' * W < g1.grid.length := by
          rw [hg1l]
          exact nat_idx_lt _ _ _ _ hx' hy'
        rw [List.getElem?_set_self hidx]
        rw [if_pos ⟨rfl, by omega⟩]
        exact hv.symm
      · have hne : x + n * W ≠ x' + y' * W := by
          intro hc
          exact hhit ⟨(cellIdx_inj W x n x' y' hx hx' hc).1.symm,
            (cellIdx_inj W x n x' y' hx hx' hc).2.symm⟩
        rw [List.getElem?_set_ne hne, hchar x' y' hx' hy']
        by_cases hcond : x' = x ∧ y' < n
        · rw [if_pos hcond, if_pos ⟨hcond.1, by omega⟩]
        · rw [if_neg hcond, if_neg (by omega)]

theorem writeAll_spec {State : Type} (upd : Int × Int → Grid State → Option State)
    (src : Grid State) (W H : Nat) :
    ∀ (m : Nat), m ≤ W → ∀ (g : Grid State),
    g.width = W → g.height = H → g.grid.length = W * H →
    (∀ x y : Nat, x < m → y < H → (upd ((x : Int), (y : Int)) src).isSome) →
    ∃ g', writeAll upd src H m g = some g'
      ∧ g'.width = W ∧ g'.height = H ∧ g'.grid.length = W * H
      ∧ (∀ x' y' : Nat, x' < W → y' < H →
          g'.grid[x' + y' * W]? =
            if x' < m then upd ((x' : Int), (y' : Int)) src
            else g.grid[x' + y' * W]?) := by
  intro m
  induction m with
  | zero =>
    intro _ g hgw hgh hgl _
    refine ⟨g, rfl, hgw, hgh, hgl, ?_⟩
    intro x' y' _ _
    simp
  | succ m ih =>
    intro hm g hgw hgh hgl hupd
    obtain ⟨g1, hrun, hg1w, hg1h, hg1l, hchar⟩ :=
      ih (by omega) g hgw hgh hgl (fun x y hx hy => hupd x y (by omega) hy)
    obtain ⟨g2, hcol, hg2w, hg2h, hg2l, hcol_char⟩ :=
      writeCol_spec upd src W H m (by omega) H (le_refl _) g1 hg1w hg1h hg1l
        (fun y hy => hupd m y (by omega) hy)
    refine ⟨g2, ?_, hg2w, hg2h, hg2l, ?_⟩
    · show (do
        let g' ← writeAll upd src H m g
        writeCol upd src m H g') = _
      rw [hrun]
      simp only [Option.bind_eq_bind, Option.some_bind]
      exact hcol
    · intro x' y' hx' hy'
      rw [hcol_char x' y' hx' hy', hchar x' y' hx' hy']
      by_cases hcase : x' = m
      · subst hcase
        rw [if_pos ⟨rfl, hy'⟩, if_pos (by omega)]
      · rw [if_neg (by omega)]
        by_cases hlt : x' < m
        · rw [if_pos hlt, if_pos (by omega)]
        · rw [if_neg hlt, if_neg (by omega)]

theorem Supervisor.update?_spec {State : Type}
    (upd : Int × Int → Grid State → Option State) (s : Supervisor State) (W H : Nat)
    (hbw : s.swap_buf.width = W) (hbh : s.swap_buf.height = H)
    (hbl : s.swap_buf.grid.length = W * H)
    (hupd : ∀ x y : Nat, x < W → y < H →
      (upd ((x : Int), (y : Int)) s.front_buf).isSome) :
    ∃ s', Supervisor.update? upd s = some s'
      ∧ s'.trans = s.trans ∧ s'.scale = s.scale
      ∧ s'.swap_buf = s.front_buf
      ∧ s'.front_buf.width = W ∧ s'.front_buf.height = H
      ∧ s'.front_buf.grid.length = W * H
      ∧ (∀ x y : Nat, x < W → y < H →
          s'.front_buf.grid[x + y * W]? = upd ((x : Int), (y : Int)) s.front_buf) := by
  obtain ⟨g', hall, hgw, hgh, hgl, hchar⟩ :=
    writeAll_spec upd s.front_buf W H W (le_refl _) s.swap_buf hbw hbh hbl
      (fun x y hx hy => hupd x y hx hy)
  refine ⟨{ s with front_buf := g', swap_buf := s.front_buf }, ?_, rfl, rfl, rfl,
    hgw, hgh, hgl, ?_⟩
  · show (do
      let fb ← writeAll upd s.front_buf s.swap_buf.height s.swap_buf.width s.swap_buf
      pure { s with front_buf := fb, swap_buf := s.front_buf }) = _
    rw [hbw, hbh, hall]
    rfl
  · intro x y hx hy
    rw [hchar x y hx hy, if_pos hx]

/-- C2: one `Supervisor::update` swaps the buffers and overwrites the new
front buffer so that every in-range cell `(x, y)` holds
`A::update((x, y), g0)` computed from the single prior generation `g0`
(the old front buffer), which survives unchanged as the new back buffer;
a second step likewise recomputes every cell from the generation committed
by the first step. -/
theorem C2_double_buffered_step {State : Type}
    (upd : Int × Int → Grid State → Option State) (s : Supervisor State) (W H : Nat)
    (hfw : s.front_buf.width = W) (hfh : s.front_buf.height = H)
    (hfl : s.front_buf.grid.length = W * H)
    (hbw : s.swap_buf.width = W) (hbh : s.swap_buf.height = H)
    (hbl : s.swap_buf.grid.length = W * H)
    (hupd : ∀ g : Grid State, g.width = W → g.height = H → g.grid.length = W * H →
      ∀ x y : Nat, x < W → y < H → (upd ((x : Int), (y : Int)) g).isSome) :
    ∃ s', Supervisor.update? upd s = some s'
      ∧ s'.swap_buf = s.front_buf ∧ s'.trans = s.trans ∧ s'.scale = s.scale
      ∧ (∀ x y : Nat, x < W → y < H →
          s'.front_buf.grid[x + y * W]? = upd ((x : Int), (y : Int)) s.front_buf)
      ∧ ∃ s'', Supervisor.update? upd s' = some s''
          ∧ s''.swap_buf = s'.front_buf
          ∧ (∀ x y : Nat, x < W → y < H →
              s''.front_buf.grid[x + y * W]? = upd ((x : Int), (y : Int)) s'.front_buf) := by
  obtain ⟨s', hstep, htrans, hscale, hswap, hw', hh', hl', hchar⟩ :=
    Supervisor.update?_spec upd s W H hbw hbh hbl
      (fun x y hx hy => hupd s.front_buf hfw hfh hfl x y hx hy)
  have hbw' : s'.swap_buf.width = W := by rw [hswap, hfw]
  have hbh' : s'.swap_buf.height = H := by rw [hswap, hfh]
  have hbl' : s'.swap_buf.grid.length = W * H := by rw [hswap, hfl]
  obtain ⟨s'', hstep2, _, _, hswap2, _, _, _, hchar2⟩ :=
    Supervisor.update?_spec upd s' W H hbw' hbh' hbl'
      (fun x y hx hy => hupd s'.front_buf hw' hh' hl' x y hx hy)
  exact ⟨s', hstep, hswap, htrans, hscale, hchar, s'', hstep2, hswap2, hchar2⟩

/-- Witness for C2: a 1×1 supervisor with the constant update rule. -/
theorem C2_witness :
    ∃ s', Supervisor.update? (fun _ _ => some (0 : Nat)) (Supervisor.new Nat 1 1) = some s'
      ∧ s'.swap_buf = (Supervisor.new Nat 1 1).front_buf
      ∧ s'.trans = (Supervisor.new Nat 1 1).trans
      ∧ s'.scale = (Supervisor.new Nat 1 1).scale
      ∧ (∀ x y : Nat, x < 1 → y < 1 →
          s'.front_buf.grid[x + y * 1]?
            = (fun (_ : Int × Int) (_ : Grid Nat) => some (0 : Nat)) ((x : Int), (y : Int))
                (Supervisor.new Nat 1 1).front_buf)
      ∧ ∃ s'', Supervisor.update? (fun _ _ => some (0 : Nat)) s' = some s''
          ∧ s''.swap_buf = s'.front_buf
          ∧ (∀ x y : Nat, x < 1 → y < 1 →
              s''.front_buf.grid[x + y * 1]?
                = (fun (_ : Int × Int) (_ : Grid Nat) => some (0 : Nat)) ((x : Int), (y : Int))
                    s'.front_buf) :=
  C2_double_buffered_step (fun _ _ => some (0 : Nat)) (Supervisor.new Nat 1 1) 1 1
    (by decide) (by decide) (by decide) (by decide) (by decide) (by decide)
    (fun _ _ _ _ _ _ _ _ => rfl)

/-! ### Claim C8 -/

theorem Grid.set?_eq_canonical {State : Type} (g : Grid State)
    (hW : 0 < g.width) (hH : 0 < g.height)
    (hlen : g.grid.length = g.width * g.height) (x y : Int)
    (hx : goodCoord x g.width) (hy : goodCoord y g.height) (v : State) :
    g.set? x y v
      = some ⟨g.width, g.height,
          g.grid.set ((x % (g.width : Int)).toNat + (y % (g.height : Int)).toNat * g.width)
            v⟩ := by
  unfold Grid.set?
  rw [g.to_idx?_eq hW hH x y hx hy]
  have hlt := wrap_idx_lt g hW hH hlen x y
  simp [hlt]

/-- C8 (amended): for every supervisor whose front buffer has positive
dimensions and a full cell vector, and any integer coordinates whose
negative axis values are not exact multiples of the corresponding
dimension, `Supervisor::toggle` replaces exactly the front-buffer cell at
the canonical wrapped position with `toggle` of its previous value and
changes nothing else: all other front cells, the back buffer, the
translation and the scale are unchanged. (As stated for *all* integers
the claim is false: at a defect coordinate the operation fails; see the
counterexample.) -/
theorem C8_toggle_front_only {State : Type} (tog : State → State) (s : Supervisor State)
    (hW : 0 < s.front_buf.width) (hH : 0 < s.front_buf.height)
    (hlen : s.front_buf.grid.length = s.front_buf.width * s.front_buf.height)
    (x y : Int)
    (hx : goodCoord x s.front_buf.width) (hy : goodCoord y s.front_buf.height) :
    ∃ old s', s.front_buf.get? x y = some old
      ∧ Supervisor.toggle? tog s x y = some s'
      ∧ s'.front_buf.grid[(x % (s.front_buf.width : Int)).toNat
            + (y % (s.front_buf.height : Int)).toNat * s.front_buf.width]?
          = some (tog old)
      ∧ (∀ i : Nat, i ≠ (x % (s.front_buf.width : Int)).toNat
            + (y % (s.front_buf.height : Int)).toNat * s.front_buf.width →
          s'.front_buf.grid[i]? = s.front_buf.grid[i]?)
      ∧ s'.front_buf.width = s.front_buf.width
      ∧ s'.front_buf.height = s.front_buf.height
      ∧ s'.swap_buf = s.swap_buf ∧ s'.trans = s.trans ∧ s'.scale = s.scale := by
  set g := s.front_buf with hg
  set idx := (x % (g.width : Int)).toNat + (y % (g.height : Int)).toNat * g.width
    with hidxdef
  have hidx : g.to_idx? x y = some idx := g.to_idx?_eq hW hH x y hx hy
  have hlt : idx < g.grid.length := wrap_idx_lt g hW hH hlen x y
  have hget : g.get? x y = g.grid[idx]? := by
    unfold Grid.get?
    rw [hidx]
    rfl
  obtain ⟨old, hold⟩ := Option.isSome_iff_exists.mp
    (by rw [hget]; simp [List.getElem?_eq_getElem hlt] :
      (g.get? x y).isSome)
  have hset := g.set?_eq_canonical hW hH hlen x y hx hy (tog old)
  refine ⟨old, { s with front_buf := { g with grid := g.grid.set idx (tog old) } },
    hold, ?_, ?_, ?_, rfl, rfl, rfl, rfl, rfl⟩
  · unfold Supervisor.toggle?
    rw [hold]
    simp only [Option.bind_eq_bind, Option.some_bind]
    rw [hset]
    rfl
  · simp only
    rw [List.getElem?_set_self hlt]
  · intro i hi
    simp only
    rw [List.getElem?_set_ne (by omega)]

/-- C8 counterexample: on a freshly constructed 1×1 supervisor,
`toggle(-1, 0)` fails outright (out-of-bounds front-buffer read) instead
of toggling the wrapped cell. -/
theorem C8_counterexample :
    Supervisor.toggle? Life.toggle (Supervisor.new LifeStates 1 1) (-1) 0 = none := by
  decide

/-- Witness for C8 on a 2×3 supervisor at `(-1, 7)`. -/
theorem C8_witness :
    ∃ old s', (Supervisor.new LifeStates 2 3).front_buf.get? (-1) 7 = some old
      ∧ Supervisor.toggle? Life.toggle (Supervisor.new LifeStates 2 3) (-1) 7 = some s'
      ∧ s'.front_buf.grid[((-1 : Int)
              % ((Supervisor.new LifeStates 2 3).front_buf.width : Int)).toNat
            + ((7 : Int) % ((Supervisor.new LifeStates 2 3).front_buf.height : Int)).toNat
              * (Supervisor.new LifeStates 2 3).front_buf.width]?
          = some (Life.toggle old)
      ∧ (∀ i : Nat, i ≠ ((-1 : Int)
              % ((Supervisor.new LifeStates 2 3).front_buf.width : Int)).toNat
            + ((7 : Int) % ((Supervisor.new LifeStates 2 3).front_buf.height : Int)).toNat
              * (Supervisor.new LifeStates 2 3).front_buf.width →
          s'.front_buf.grid[i]? = (Supervisor.new LifeStates 2 3).front_buf.grid[i]?)
      ∧ s'.front_buf.width = (Supervisor.new LifeStates 2 3).front_buf.width
      ∧ s'.front_buf.height = (Supervisor.new LifeStates 2 3).front_buf.height
      ∧ s'.swap_buf = (Supervisor.new LifeStates 2 3).swap_buf
      ∧ s'.trans = (Supervisor.new LifeStates 2 3).trans
      ∧ s'.scale = (Supervisor.new LifeStates 2 3).scale :=
  C8_toggle_front_only Life.toggle (Supervisor.new LifeStates 2 3)
    (by decide) (by decide) (by decide) (-1) 7 (by decide) (by decide)

/-! ### Claim C3 -/

/-- The eight spec offsets: the radius-1 Moore neighbourhood minus self. -/
def mooreOffsets : List (Int × Int) :=
  [(-1, -1), (0, -1), (1, -1), (-1, 0), (1, 0), (-1, 1), (0, 1), (1, 1)]

/-- Spec-side count of Alive cells among the 8 surrounding neighbours,
read through the canonical wrap-around. -/
def specAliveCount (g : Grid LifeStates) (px py : Int) : Nat :=
  (mooreOffsets.filter
    (fun p => g.specGet (p.1 + px) (p.2 + py) == some LifeStates.Alife)).length

theorem goodCoord_near (c : Int) (W : Nat) (h2 : 2 ≤ W) (h : -1 ≤ c) :
    goodCoord c W := by
  rcases le_or_lt 0 c with h0 | h0
  · exact Or.inl h0
  · have hc : c = -1 := by omega
    subst hc
    right
    have h1 : ((-1 : Int)).natAbs = 1 := rfl
    rw [h1, Nat.mod_eq_of_lt (by omega)]
    omega

theorem mooreList_one_filtered :
    (mooreList 1).filter (fun p => p.1 != 0 || p.2 != 0) = mooreOffsets := by
  decide

/-- C3 counterexample: Life's update on the default 1×1 grid fails (the
first neighbour read at `(-1, -1)` hits the out-of-range index 2) instead
of returning `Dead` as the rule table demands for a Dead cell with 0
alive neighbours. -/
theorem C3_counterexample :
    Life.update? (0, 0) (Grid.generate LifeStates 1 1) = none := by
  decide

/-- C3 (amended): on every grid with both dimensions at least 2 and a full
cell vector, for every in-range cell position, Life's update succeeds and
returns Alive if and only if the cell is Alive with exactly 2 or 3 Alive
neighbours among the 8 wrap-around Moore neighbours, or Dead with exactly
3; otherwise it returns Dead. (As stated for all positive dimensions the
claim is false: with a dimension of 1 the wrap defect makes the neighbour
reads fail; see the counterexample.) -/
theorem C3_life_rule (g : Grid LifeStates) (hW : 2 ≤ g.width) (hH : 2 ≤ g.height)
    (hlen : g.grid.length = g.width * g.height)
    (px py : Int) (hpx0 : 0 ≤ px) (hpxW : px < (g.width : Int))
    (hpy0 : 0 ≤ py) (hpyH : py < (g.height : Int)) :
    ∃ r, Life.update? (px, py) g = some r
      ∧ (r = LifeStates.Alife ↔
          ((g.specGet px py = some LifeStates.Alife
              ∧ (specAliveCount g px py = 2 ∨ specAliveCount g px py = 3))
            ∨ (g.specGet px py = some LifeStates.Dead
                ∧ specAliveCount g px py = 3))) := by
  have hWpos : 0 < g.width := by omega
  have hHpos : 0 < g.height := by omega
  have hsome : ∀ p : Int × Int, p ∈ mooreOffsets →
      ∃ v, g.get? (p.1 + px) (p.2 + py) = some v
        ∧ g.specGet (p.1 + px) (p.2 + py) = some v := by
    intro p hp
    have hgx : goodCoord (p.1 + px) g.width := by
      refine goodCoord_near _ _ hW ?_
      fin_cases hp <;> simp <;> omega
    have hgy : goodCoord (p.2 + py) g.height := by
      refine goodCoord_near _ _ hH ?_
      fin_cases hp <;> simp <;> omega
    have heq := g.get?_eq_specGet hWpos hHpos _ _ hgx hgy
    obtain ⟨v, hv⟩ := Option.isSome_iff_exists.mp
      (g.specGet_isSome hWpos hHpos hlen (p.1 + px) (p.2 + py))
    exact ⟨v, by rw [heq]; exact hv, hv⟩
  obtain ⟨v1, hg1, hs1⟩ := hsome (-1, -1) (by simp [mooreOffsets])
  obtain ⟨v2, hg2, hs2⟩ := hsome (0, -1) (by simp [mooreOffsets])
  obtain ⟨v3, hg3, hs3⟩ := hsome (1, -1) (by simp [mooreOffsets])
  obtain ⟨v4, hg4, hs4⟩ := hsome (-1, 0) (by simp [mooreOffsets])
  obtain ⟨v5, hg5, hs5⟩ := hsome (1, 0) (by simp [mooreOffsets])
  obtain ⟨v6, hg6, hs6⟩ := hsome (-1, 1) (by simp [mooreOffsets])
  obtain ⟨v7, hg7, hs7⟩ := hsome (0, 1) (by simp [mooreOffsets])
  obtain ⟨v8, hg8, hs8⟩ := hsome (1, 1) (by simp [mooreOffsets])
  obtain ⟨c, hc⟩ := Option.isSome_iff_exists.mp
    (g.specGet_isSome hWpos hHpos hlen px py)
  have hcget : g.get? px py = some c := by
    rw [g.get?_eq_specGet hWpos hHpos px py (Or.inl hpx0) (Or.inl hpy0)]
    exact hc
  simp only at hg1 hg2 hg3 hg4 hg5 hg6 hg7 hg8
  have hupd : Life.update? (px, py) g
      = some (lifeRule ((List.map (fun s =>
            match s with
            | LifeStates.Dead => 0
            | LifeStates.Alife => 1) [v1, v2, v3, v4, v5, v6, v7, v8]).sum) c) := by
    unfold Life.update?
    rw [mooreList_one_filtered]
    simp only [mooreOffsets, List.mapM_cons, List.mapM_nil, hg1, hg2, hg3, hg4, hg5,
      hg6, hg7, hg8, hcget, Option.bind_eq_bind, Option.some_bind, Option.pure_def]
  have hcount : specAliveCount g px py
      = (List.filter (fun v : LifeStates => v == LifeStates.Alife)
          [v1, v2, v3, v4, v5, v6, v7, v8]).length := by
    unfold specAliveCount
    simp only [mooreOffsets, List.filter_cons, List.filter_nil, hs1, hs2, hs3, hs4,
      hs5, hs6, hs7, hs8]
    rcases v1 <;> rcases v2 <;> rcases v3 <;> rcases v4 <;> rcases v5 <;> rcases v6 <;>
      rcases v7 <;> rcases v8 <;> decide
  refine ⟨_, hupd, ?_⟩
  rw [hc, hcount]
  rcases c <;> rcases v1 <;> rcases v2 <;> rcases v3 <;> rcases v4 <;> rcases v5 <;>
    rcases v6 <;> rcases v7 <;> rcases v8 <;> decide

/-- Witness for C3: the all-Dead 2×2 grid at `(0, 0)` (0 neighbours,
Dead stays Dead). -/
theorem C3_witness :
    ∃ r, Life.update? (0, 0) (Grid.generate LifeStates 2 2) = some r
      ∧ (r = LifeStates.Alife ↔
          (((Grid.generate LifeStates 2 2).specGet 0 0 = some LifeStates.Alife
              ∧ (specAliveCount (Grid.generate LifeStates 2 2) 0 0 = 2
                  ∨ specAliveCount (Grid.generate LifeStates 2 2) 0 0 = 3))
            ∨ ((Grid.generate LifeStates 2 2).specGet 0 0 = some LifeStates.Dead
                ∧ specAliveCount (Grid.generate LifeStates 2 2) 0 0 = 3))) :=
  C3_life_rule (Grid.generate LifeStates 2 2) (by decide) (by decide) (by decide)
    0 0 (by decide) (by decide) (by decide) (by decide)

end CellAuto
